import Mathlib

/-
Verification of the booking core of the jandi-room-booking-bot repository.

Shallow embedding conventions:
  - Clock times stay the TEXT values the source stores and compares.  The
    parser regex ([01]?[0-9]|2[0-3]):[0-5][0-9] admits, besides zero-padded
    HH:mm, non-padded tokens such as 9:30; the handlers bind those tokens into
    the SQL query and store them verbatim, and SQLite compares the TEXT
    columns with its default BINARY collation, i.e. memcmp of the UTF-8
    bytes.  strLt below is exactly that order (UTF-8 byte order equals
    codepoint order); timeToMin models the dayjs parse of the two
    regex-admitted shapes; minToTime models dayjs format('HH:mm'), which is
    always zero-padded.
  - Calendar dates are embedded as Nat day indices: every date token passes
    through the shared parseKoreanDate subroutine, which re-emits it with
    dayjs format('YYYY-MM-DD'), so stored dates are canonical strings whose
    order is day order.  The instant "day D at minute t" used by dayjs
    comparisons is D * 1440 + t (absolute minutes).
  - The source's status union 'active' | 'cancelled' | 'completed' and its
    string error codes are embedded as closed inductive types with the same
    names.
  - The SQLite table of bookings is embedded as a List Booking; SELECT/UPDATE
    statements become the corresponding pure list operations; the UNIQUE
    constraint on booking_id makes INSERT fail on a duplicate id, which
    createBooking models by returning none (the source catches the throw).
-/

namespace JandiBot

/-- Status column of the bookings table: 'active' | 'cancelled' | 'completed'. -/
inductive BookingStatus where
  | active
  | cancelled
  | completed
deriving DecidableEq, Repr

/-- Error codes used in CommandResult.error.code across the command handlers. -/
inductive ErrCode where
  | ROOM_NOT_FOUND
  | PAST_TIME
  | OUTSIDE_HOURS
  | CONFLICT
  | BOOKING_ERROR
  | BOOKING_NOT_FOUND
  | INVALID_STATUS
  | UNAUTHORIZED
  | MAX_DURATION
  | PARSE_ERROR
  | INTERNAL_ERROR
deriving DecidableEq, Repr

/-- A row of the bookings table (src/src/services/database.ts).  start_time
and end_time are kept as the TEXT values the source stores.  The columns
calendar_id, event_id, created_at and updated_at are bookkeeping strings never
read by any conflict or policy check and are omitted. -/
structure Booking where
  bookingId : String
  roomId : Nat
  title : String
  date : Nat
  startTime : String
  endTime : String
  durationMinutes : Nat
  requestedBy : String
  requestedByName : String
  status : BookingStatus
deriving DecidableEq, Repr

/-- A row of the rooms table; only the columns the command handlers read. -/
structure Room where
  id : Nat
  name : String
  displayName : String
deriving DecidableEq, Repr

/-- BookingPolicy configuration (types/index.ts).  The handlers read only the
hour component of bookingHoursStart/End (parseInt of the part before the
colon), so the two bounds are embedded directly as hours. -/
structure BookingPolicy where
  maxDurationMinutes : Nat
  minDurationMinutes : Nat
  bufferMinutes : Nat
  bookingHoursStartHour : Nat
  bookingHoursEndHour : Nat
deriving DecidableEq, Repr

/-- CommandResult (types/index.ts) restricted to the fields the claims are
about: the success flag and error.code / error.details.  The user-facing
message string is not modelled. -/
structure CommandResult where
  success : Bool
  errCode : Option ErrCode
  details : Option String
deriving DecidableEq, Repr

/-- Arguments of a parsed book command (BookCommandArgs in types/index.ts).
startTime is the raw regex-validated token, possibly non-padded. -/
structure BookArgs where
  roomName : String
  date : Nat
  startTime : String
  duration : Nat
  title : String
deriving DecidableEq, Repr

/-- The fields of the Jandi outgoing-webhook payload that the command handlers
and the audit logger read. -/
structure Payload where
  writerName : String
  writerEmail : String
  text : String
  ip : String
  roomName : String
deriving DecidableEq, Repr

/-- The booking store: the bookings table as a list of rows. -/
abbrev Store := List Booking

/-- One decimal digit character, as emitted by zero-padded formatting. -/
def digitChar (n : Nat) : Char :=
  match n with
  | 0 => '0'
  | 1 => '1'
  | 2 => '2'
  | 3 => '3'
  | 4 => '4'
  | 5 => '5'
  | 6 => '6'
  | 7 => '7'
  | 8 => '8'
  | _ => '9'

/-- Numeric value of a digit character, as in parseInt / the dayjs parser. -/
def digitVal (c : Char) : Nat := c.toNat - 48

/-- dayjs format('HH:mm') of a minutes-since-midnight value below 1440: two
zero-padded hour digits, a colon, two zero-padded minute digits. -/
def minToTime (n : Nat) : String :=
  String.mk [digitChar (n / 60 / 10), digitChar (n / 60 % 10), ':',
    digitChar (n % 60 / 10), digitChar (n % 60 % 10)]

/-- Minutes since midnight denoted by a parser-accepted time token: the dayjs
parse of the two shapes the regex ([01]?[0-9]|2[0-3]):[0-5][0-9] admits, the
zero-padded HH:mm and the non-padded H:mm; anything else (unreachable from
the handlers) maps to 0. -/
def timeToMin (s : String) : Nat :=
  match s.data with
  | [h1, h2, _, m1, m2] =>
      (digitVal h1 * 10 + digitVal h2) * 60 + (digitVal m1 * 10 + digitVal m2)
  | [h1, _, m1, m2] => digitVal h1 * 60 + (digitVal m1 * 10 + digitVal m2)
  | _ => 0

/-- Byte order on character lists: memcmp of the UTF-8 encodings, which
coincides with codepoint order because UTF-8 preserves it. -/
def charListLt : List Char → List Char → Bool
  | [], [] => false
  | [], _ :: _ => true
  | _ :: _, [] => false
  | a :: as, b :: bs =>
      decide (a.toNat < b.toNat) || (a.toNat == b.toNat && charListLt as bs)

/-- The order SQLite's default BINARY collation applies to the TEXT
start_time / end_time columns and their bound parameters: memcmp. -/
def strLt (s t : String) : Bool := charListLt s.data t.data

/-- Case folding of SQL LOWER(), applied to the character list of a string. -/
def lowerChars (s : String) : List Char :=
  s.data.map Char.toLower

/-- SELECT ... FROM rooms WHERE LOWER(name) = LOWER(?), database.ts
getRoomByName: case-insensitive match on the room code. -/
def getRoomByName (rooms : List Room) (name : String) : Option Room :=
  rooms.find? (fun r => lowerChars r.name == lowerChars name)

/-- SELECT ... FROM rooms WHERE id = ?, database.ts getRoomById. -/
def getRoomById (rooms : List Room) (id : Nat) : Option Room :=
  rooms.find? (fun r => r.id == id)

/-- SELECT ... FROM bookings WHERE booking_id = ?, database.ts getBookingById. -/
def getBookingById (store : Store) (bookingId : String) : Option Booking :=
  store.find? (fun b => b.bookingId == bookingId)

/-- The three-disjunct overlap test in the WHERE clause of
checkRoomAvailability (database.ts lines 315-319), applied to one existing
row, with startT/endT the candidate window, under the BINARY TEXT order:
  (start_time < endT AND end_time > startT)
  OR (start_time < endT AND end_time > endT)
  OR (start_time >= startT AND end_time <= endT). -/
def overlapsQuery (startT endT : String) (b : Booking) : Bool :=
  (strLt b.startTime endT && strLt startT b.endTime) ||
  (strLt b.startTime endT && strLt endT b.endTime) ||
  (!(strLt b.startTime startT) && !(strLt endT b.endTime))

/-- One row matches the conflict-counting query of checkRoomAvailability:
same room, same date, status 'active', overlapping window, and not the
excluded booking id when one is given. -/
def conflictRow (roomId date : Nat) (startT endT : String) (excl : Option String)
    (b : Booking) : Bool :=
  (b.roomId == roomId) && (b.date == date) && (b.status == BookingStatus.active) &&
  overlapsQuery startT endT b &&
  (match excl with
   | none => true
   | some x => b.bookingId != x)

/-- database.ts checkRoomAvailability: SELECT COUNT(*) of conflicting rows;
returns true when the count is zero. -/
def checkRoomAvailability (store : Store) (roomId date : Nat) (startT endT : String)
    (excl : Option String) : Bool :=
  store.countP (conflictRow roomId date startT endT excl) == 0

/-- database.ts createBooking: INSERT INTO bookings.  The UNIQUE constraint on
booking_id makes the insert throw when the id already exists, modelled as
none; otherwise the row is appended. -/
def createBooking (store : Store) (b : Booking) : Option Store :=
  if store.any (fun x => x.bookingId == b.bookingId) then none
  else some (store ++ [b])

/-- database.ts updateBookingStatus: UPDATE bookings SET status = ? WHERE
booking_id = ?. -/
def updateBookingStatus (store : Store) (bookingId : String)
    (status : BookingStatus) : Store :=
  store.map (fun b =>
    if b.bookingId = bookingId then { b with status := status } else b)

/-- database.ts updateBookingTime (move): UPDATE bookings SET date = ?,
start_time = ?, end_time = ? WHERE booking_id = ?. -/
def updateBookingTime (store : Store) (bookingId : String)
    (date : Nat) (startTime endTime : String) : Store :=
  store.map (fun b =>
    if b.bookingId = bookingId then
      { b with date := date, startTime := startTime, endTime := endTime }
    else b)

/-- database.ts updateBookingEndTime (extend): UPDATE bookings SET
end_time = ?, duration_minutes = ? WHERE booking_id = ?. -/
def updateBookingEndTime (store : Store) (bookingId : String)
    (endTime : String) (durationMinutes : Nat) : Store :=
  store.map (fun b =>
    if b.bookingId = bookingId then
      { b with endTime := endTime, durationMinutes := durationMinutes }
    else b)

/-- The booking row handleBookCommand inserts: the start-time token is stored
verbatim; the end time is the dayjs format('HH:mm') of start + duration,
which wraps past midnight, while the stored date stays the start date. -/
def newBooking (room : Room) (args : BookArgs) (writerEmail writerName newId : String) :
    Booking :=
  { bookingId := newId, roomId := room.id, title := args.title,
    date := args.date, startTime := args.startTime,
    endTime := minToTime ((args.date * 1440 + timeToMin args.startTime
      + args.duration) % 1440),
    durationMinutes := args.duration, requestedBy := writerEmail,
    requestedByName := writerName, status := .active }

/-- handleBookCommand of the command handler module.  now is the current
instant in absolute minutes (dayjs()); newId is the value produced by
generateBookingId.  Returns the CommandResult together with the store after
the call. -/
def handleBookCommand (policy : BookingPolicy) (rooms : List Room)
    (store : Store) (now : Nat) (args : BookArgs)
    (writerEmail writerName newId : String) : CommandResult × Store :=
  match getRoomByName rooms args.roomName with
  | none => ({ success := false, errCode := some .ROOM_NOT_FOUND, details := none }, store)
  | some room =>
    let startDateTime := args.date * 1440 + timeToMin args.startTime
    let endDateTime := startDateTime + args.duration
    let endTime := minToTime (endDateTime % 1440)
    if startDateTime < now then
      ({ success := false, errCode := some .PAST_TIME, details := none }, store)
    else
      let startHour := (startDateTime % 1440) / 60
      let endHour := (endDateTime % 1440) / 60
      if startHour < policy.bookingHoursStartHour ∨ endHour > policy.bookingHoursEndHour then
        ({ success := false, errCode := some .OUTSIDE_HOURS, details := none }, store)
      else if checkRoomAvailability store room.id args.date args.startTime endTime none then
        match createBooking store (newBooking room args writerEmail writerName newId) with
        | some s => ({ success := true, errCode := none, details := none }, s)
        | none => ({ success := false, errCode := some .BOOKING_ERROR, details := none }, store)
      else
        ({ success := false, errCode := some .CONFLICT, details := none }, store)

/-- handleCancelCommand: not-found, then status, then ownership check, then
UPDATE of the status to cancelled. -/
def handleCancelCommand (store : Store) (bookingId writerEmail : String) :
    CommandResult × Store :=
  match getBookingById store bookingId with
  | none => ({ success := false, errCode := some .BOOKING_NOT_FOUND, details := none }, store)
  | some booking =>
    if booking.status ≠ BookingStatus.active then
      ({ success := false, errCode := some .INVALID_STATUS, details := none }, store)
    else if booking.requestedBy ≠ writerEmail then
      ({ success := false, errCode := some .UNAUTHORIZED, details := none }, store)
    else
      ({ success := true, errCode := none, details := none },
       updateBookingStatus store bookingId .cancelled)

/-- handleMoveCommand: not-found, ownership, room lookup, availability at the
new window excluding the booking itself, then UPDATE of date/start/end.  The
raw start-time token is stored verbatim; the source never consults the
current clock here. -/
def handleMoveCommand (rooms : List Room) (store : Store)
    (bookingId : String) (newDate : Nat) (newStartTime : String)
    (writerEmail : String) : CommandResult × Store :=
  match getBookingById store bookingId with
  | none => ({ success := false, errCode := some .BOOKING_NOT_FOUND, details := none }, store)
  | some booking =>
    if booking.requestedBy ≠ writerEmail then
      ({ success := false, errCode := some .UNAUTHORIZED, details := none }, store)
    else
      match getRoomById rooms booking.roomId with
      | none => ({ success := false, errCode := some .ROOM_NOT_FOUND, details := none }, store)
      | some room =>
        let startDateTime := newDate * 1440 + timeToMin newStartTime
        let newEndTime := minToTime ((startDateTime + booking.durationMinutes) % 1440)
        if checkRoomAvailability store room.id newDate newStartTime newEndTime
            (some bookingId) then
          ({ success := true, errCode := none, details := none },
           updateBookingTime store bookingId newDate newStartTime newEndTime)
        else
          ({ success := false, errCode := some .CONFLICT, details := none }, store)

/-- handleExtendCommand: not-found, ownership, room lookup, max-duration
policy check on original + additional, availability over the delta window
from the old end to the new end excluding the booking itself, then UPDATE of
end_time and duration_minutes. -/
def handleExtendCommand (policy : BookingPolicy) (rooms : List Room)
    (store : Store) (bookingId : String) (additionalMinutes : Nat)
    (writerEmail : String) : CommandResult × Store :=
  match getBookingById store bookingId with
  | none => ({ success := false, errCode := some .BOOKING_NOT_FOUND, details := none }, store)
  | some booking =>
    if booking.requestedBy ≠ writerEmail then
      ({ success := false, errCode := some .UNAUTHORIZED, details := none }, store)
    else
      match getRoomById rooms booking.roomId with
      | none => ({ success := false, errCode := some .ROOM_NOT_FOUND, details := none }, store)
      | some room =>
        let newEndTime := minToTime ((booking.date * 1440 + timeToMin booking.endTime
          + additionalMinutes) % 1440)
        let newTotalMinutes := booking.durationMinutes + additionalMinutes
        if newTotalMinutes > policy.maxDurationMinutes then
          ({ success := false, errCode := some .MAX_DURATION, details := none }, store)
        else if checkRoomAvailability store room.id booking.date booking.endTime
            newEndTime (some bookingId) then
          ({ success := true, errCode := none, details := none },
           updateBookingEndTime store bookingId newEndTime newTotalMinutes)
        else
          ({ success := false, errCode := some .CONFLICT, details := none }, store)

/-- A parsed command (the typed intent the switch of handleCommand dispatches
on).  The read-only intents carry only the arguments the claims mention. -/
inductive Command where
  | helpCmd
  | statusCmd (date : Option Nat) (timeRange : Option String)
  | bookCmd (args : BookArgs)
  | cancelCmd (bookingId : String)
  | myCmd (filter : String)
  | listRoomsCmd
  | listBookingsCmd (date : Nat)
  | moveCmd (bookingId : String) (date : Nat) (startTime : String)
  | extendCmd (bookingId : String) (additionalMinutes : Nat)
deriving DecidableEq, Repr

/-- The command.type string recorded in the audit log for each intent. -/
def commandTypeName : Command → String
  | .helpCmd => "help"
  | .statusCmd _ _ => "status"
  | .bookCmd _ => "book"
  | .cancelCmd _ => "cancel"
  | .myCmd _ => "my"
  | .listRoomsCmd => "list"
  | .listBookingsCmd _ => "list"
  | .moveCmd _ _ _ => "move"
  | .extendCmd _ _ => "extend"

/-- The switch statement of handleCommand.  The status, my and list handlers
only read the store and build a message, so they return a success result and
the unchanged store; the mutating intents call their handlers. -/
def dispatchCommand (policy : BookingPolicy) (rooms : List Room) (store : Store)
    (now : Nat) (payload : Payload) (newId : String) :
    Command → CommandResult × Store
  | .helpCmd => ({ success := true, errCode := none, details := none }, store)
  | .statusCmd _ _ => ({ success := true, errCode := none, details := none }, store)
  | .bookCmd args =>
      handleBookCommand policy rooms store now args payload.writerEmail
        payload.writerName newId
  | .cancelCmd bookingId => handleCancelCommand store bookingId payload.writerEmail
  | .myCmd _ => ({ success := true, errCode := none, details := none }, store)
  | .listRoomsCmd => ({ success := true, errCode := none, details := none }, store)
  | .listBookingsCmd _ => ({ success := true, errCode := none, details := none }, store)
  | .moveCmd bookingId d s => handleMoveCommand rooms store bookingId d s payload.writerEmail
  | .extendCmd bookingId a =>
      handleExtendCommand policy rooms store bookingId a payload.writerEmail

/-- An audit_logs row (database.ts createAuditLog).  The parameters and
response columns are JSON of the payload and the user-facing message, both
functions of the payload and the result alone, and are omitted; the table has
no column for the elapsed processing time. -/
structure AuditLog where
  userEmail : String
  userName : String
  command : String
  commandType : String
  status : String
  errorMessage : Option String
  ipAddress : String
  roomName : String
deriving DecidableEq, Repr

/-- logCommand of the command handler module.  Builds the audit row from the
payload, the command type and the result, and computes the elapsed duration
endClock - startClock, which the source hands only to the process logger
(logger.info); the pair returned here keeps that duration separate from the
audit row to mirror that. -/
def logCommand (payload : Payload) (commandType : String)
    (result : CommandResult) (startClock endClock : Nat) : AuditLog × Nat :=
  ({ userEmail := payload.writerEmail,
     userName := payload.writerName,
     command := payload.text,
     commandType := commandType,
     status := if result.success then "success" else "failure",
     errorMessage := result.details,
     ipAddress := payload.ip,
     roomName := payload.roomName },
   endClock - startClock)

/-- Outcome of parseCommand on the raw text.  parseCommand
(src/src/services/commandParser.ts) is a pure total function of the text (and
of the current date for today/tomorrow tokens), so quantifying over its
outcomes covers every raw input. -/
inductive ParseOutcome where
  | failed (err : String)
  | parsed (cmd : Command)
deriving DecidableEq, Repr

/-- handleCommand, the request orchestrator: a parse failure short-circuits
with PARSE_ERROR; otherwise the command is dispatched inside try/catch, where
crash = some msg models the dispatched handler throwing (the catch turns it
into INTERNAL_ERROR and leaves the store as it was).  In every case exactly
one logCommand call appends one audit row before the response is produced.
startClock is Date.now() taken on entry, endClock the clock inside logCommand.
Returns (result, store after the call, audit rows appended). -/
def handleCommand (policy : BookingPolicy) (rooms : List Room) (store : Store)
    (now : Nat) (payload : Payload) (parse : ParseOutcome) (newId : String)
    (crash : Option String) (startClock endClock : Nat) :
    CommandResult × Store × List AuditLog :=
  match parse with
  | .failed _ =>
      let result : CommandResult :=
        { success := false, errCode := some .PARSE_ERROR, details := none }
      let lg := logCommand payload "help" result startClock endClock
      (result, store, [lg.1])
  | .parsed cmd =>
      let rs : CommandResult × Store :=
        match crash with
        | some msg =>
            ({ success := false, errCode := some .INTERNAL_ERROR, details := some msg },
             store)
        | none => dispatchCommand policy rooms store now payload newId cmd
      let lg := logCommand payload (commandTypeName cmd) rs.1 startClock endClock
      (rs.1, rs.2, [lg.1])

/-- One mutating operation of the sequential execution model: a book with its
current instant and generated id, or a cancel / move / extend (whose handlers
never read the clock). -/
inductive Op where
  | bookOp (now : Nat) (args : BookArgs) (writerEmail writerName newId : String)
  | cancelOp (bookingId writerEmail : String)
  | moveOp (bookingId : String) (newDate : Nat) (newStartTime : String)
      (writerEmail : String)
  | extendOp (bookingId : String) (additionalMinutes : Nat) (writerEmail : String)
deriving DecidableEq, Repr

/-- The store after one operation (the second component of the handler). -/
def applyOp (policy : BookingPolicy) (rooms : List Room) (store : Store) :
    Op → Store
  | .bookOp now args we wn newId =>
      (handleBookCommand policy rooms store now args we wn newId).2
  | .cancelOp bookingId we => (handleCancelCommand store bookingId we).2
  | .moveOp bookingId d s we => (handleMoveCommand rooms store bookingId d s we).2
  | .extendOp bookingId a we =>
      (handleExtendCommand policy rooms store bookingId a we).2

/-- The store after a sequence of operations. -/
def run (policy : BookingPolicy) (rooms : List Room) (store : Store)
    (ops : List Op) : Store :=
  ops.foldl (applyOp policy rooms) store

/-- Strict interval overlap of two rows, the conflict notion of the spec,
read through the times their stored strings denote: a.start < b.end and
b.start < a.end; touching endpoints do not overlap. -/
def strictOverlap (a b : Booking) : Prop :=
  timeToMin a.startTime < timeToMin b.endTime ∧
  timeToMin b.startTime < timeToMin a.endTime

/-- Relation required between two distinct rows of a consistent store: their
ids differ (the UNIQUE constraint) and, if both are active on the same room
and date, their intervals do not strictly overlap. -/
def okPair (a b : Booking) : Prop :=
  a.bookingId ≠ b.bookingId ∧
  (a.status = .active → b.status = .active → a.roomId = b.roomId → a.date = b.date →
    ¬ strictOverlap a b)

/-- A time string is canonical when it is the zero-padded HH:mm form of an
in-range minute value, exactly the strings dayjs format('HH:mm') emits; on
canonical strings the BINARY TEXT order coincides with time order. -/
def canonicalTime (s : String) : Prop :=
  s = minToTime (timeToMin s) ∧ timeToMin s < 1440

/-- Both time fields of a row are canonical. -/
def canonicalBooking (b : Booking) : Prop :=
  canonicalTime b.startTime ∧ canonicalTime b.endTime

/-- The store invariant: okPair for every pair of distinct rows, and every
stored time string canonical. -/
def Inv (store : Store) : Prop :=
  store.Pairwise okPair ∧ ∀ b ∈ store, canonicalBooking b

/-- An operation supplies only canonical time tokens: book and move carry a
raw start-time token that is bound into SQL and stored verbatim; cancel and
extend introduce no raw time string. -/
def opCanonical : Op → Prop
  | .bookOp _ args _ _ _ => canonicalTime args.startTime
  | .cancelOp _ _ => True
  | .moveOp _ _ s _ => canonicalTime s
  | .extendOp _ _ _ => True

instance (s : String) : Decidable (canonicalTime s) := by
  unfold canonicalTime
  infer_instance

instance (b : Booking) : Decidable (canonicalBooking b) := by
  unfold canonicalBooking
  infer_instance

instance (op : Op) : Decidable (opCanonical op) := by
  cases op <;> (unfold opCanonical; infer_instance)

/-- Fixture: a room with id 1 and code A. -/
def roomA : Room := { id := 1, name := "A", displayName := "Room A" }

/-- Fixture policy: duration 30..240 minutes, hours 09..18. -/
def policyStd : BookingPolicy :=
  { maxDurationMinutes := 240, minDurationMinutes := 30, bufferMinutes := 0,
    bookingHoursStartHour := 9, bookingHoursEndHour := 18 }

/-- Fixture: an active one-hour booking 10:00-11:00 on room 1, day 0. -/
def bkTenEleven : Booking :=
  { bookingId := "R-A", roomId := 1, title := "standup", date := 0,
    startTime := "10:00", endTime := "11:00", durationMinutes := 60,
    requestedBy := "alice@x", requestedByName := "Alice", status := .active }

/-- Fixture: an active early-morning booking 00:05-00:20 on room 1, day 0. -/
def exBookingC2 : Booking :=
  { bookingId := "R-1", roomId := 1, title := "t", date := 0,
    startTime := "00:05", endTime := "00:20", durationMinutes := 15,
    requestedBy := "alice@x", requestedByName := "Alice", status := .active }

/-- Fixture: book room A on day 1 at 23:30 for 60 minutes. -/
def bookArgsC3 : BookArgs :=
  { roomName := "A", date := 1, startTime := "23:30", duration := 60, title := "m" }

/-- Fixture: book room A on day 1 with the parser-accepted non-padded token
9:30 for 120 minutes. -/
def bookArgsBad : BookArgs :=
  { roomName := "A", date := 1, startTime := "9:30", duration := 120, title := "b" }

/-- Fixture: an active booking on day 5 owned by u at x. -/
def pastBooking : Booking :=
  { bookingId := "R-1", roomId := 1, title := "t", date := 5,
    startTime := "10:00", endTime := "11:00", durationMinutes := 60,
    requestedBy := "u@x", requestedByName := "U", status := .active }

/-- Fixture: a cancelled booking owned by alice at x. -/
def cancelledByAlice : Booking :=
  { bookingId := "R-1", roomId := 1, title := "t", date := 5,
    startTime := "10:00", endTime := "11:00", durationMinutes := 60,
    requestedBy := "alice@x", requestedByName := "Alice", status := .cancelled }

/-- Fixture payload for orchestrator-level statements. -/
def payloadEx : Payload :=
  { writerName := "U", writerEmail := "u@x", text := "help", ip := "1.2.3.4",
    roomName := "general" }

/-- Fixture: book room A on day 1 at 10:00 for 60 minutes. -/
def bookArgsOK : BookArgs :=
  { roomName := "A", date := 1, startTime := "10:00", duration := 60, title := "w" }

/-- The character list behind a formatted time. -/
lemma minToTime_data (n : Nat) : (minToTime n).data
    = [digitChar (n / 60 / 10), digitChar (n / 60 % 10), ':',
       digitChar (n % 60 / 10), digitChar (n % 60 % 10)] := rfl

/-- Codepoint of a digit character. -/
lemma digitChar_toNat {x : Nat} (h : x < 10) : (digitChar x).toNat = 48 + x := by
  interval_cases x <;> rfl

/-- Parsing inverts the digit formatter. -/
lemma digitVal_digitChar {x : Nat} (h : x < 10) : digitVal (digitChar x) = x := by
  interval_cases x <;> rfl

/-- On formatted in-range times, the BINARY TEXT order is the time order. -/
lemma strLt_minToTime {m n : Nat} (hm : m < 1440) (hn : n < 1440) :
    strLt (minToTime m) (minToTime n) = true ↔ m < n := by
  have e1 := digitChar_toNat (x := m / 60 / 10) (by omega)
  have e2 := digitChar_toNat (x := m / 60 % 10) (by omega)
  have e3 := digitChar_toNat (x := m % 60 / 10) (by omega)
  have e4 := digitChar_toNat (x := m % 60 % 10) (by omega)
  have f1 := digitChar_toNat (x := n / 60 / 10) (by omega)
  have f2 := digitChar_toNat (x := n / 60 % 10) (by omega)
  have f3 := digitChar_toNat (x := n % 60 / 10) (by omega)
  have f4 := digitChar_toNat (x := n % 60 % 10) (by omega)
  have hc : (':' : Char).toNat = 58 := rfl
  simp only [strLt, minToTime_data, charListLt, Bool.or_eq_true, Bool.and_eq_true,
    decide_eq_true_eq, beq_iff_eq, Bool.false_eq_true, and_false, or_false, true_and,
    e1, e2, e3, e4, f1, f2, f3, f4, hc]
  omega

/-- Parsing inverts formatting on in-range minute values. -/
lemma timeToMin_minToTime {n : Nat} (hn : n < 1440) : timeToMin (minToTime n) = n := by
  have e1 := digitVal_digitChar (x := n / 60 / 10) (by omega)
  have e2 := digitVal_digitChar (x := n / 60 % 10) (by omega)
  have e3 := digitVal_digitChar (x := n % 60 / 10) (by omega)
  have e4 := digitVal_digitChar (x := n % 60 % 10) (by omega)
  simp only [timeToMin, minToTime_data, e1, e2, e3, e4]
  omega

/-- Every formatted in-range value is a canonical time string. -/
lemma canonicalTime_minToTime {n : Nat} (hn : n < 1440) :
    canonicalTime (minToTime n) := by
  constructor
  · rw [timeToMin_minToTime hn]
  · rw [timeToMin_minToTime hn]
    exact hn

/-- On canonical strings, strLt decides the denoted-time order. -/
lemma strLt_canonical {s t : String} (hs : canonicalTime s) (ht : canonicalTime t) :
    strLt s t = true ↔ timeToMin s < timeToMin t := by
  conv_lhs => rw [hs.1, ht.1]
  exact strLt_minToTime hs.2 ht.2

/-- The false case of strLt on canonical strings. -/
lemma strLt_canonical_false {s t : String} (hs : canonicalTime s) (ht : canonicalTime t) :
    strLt s t = false ↔ timeToMin t ≤ timeToMin s := by
  rw [← Bool.not_eq_true, strLt_canonical hs ht, Nat.not_lt]

/-- Propositional reading of one row of the conflict-counting query, with the
raw BINARY TEXT comparisons. -/
lemma conflictRow_eq_true_iff {roomId date : Nat} {startT endT : String}
    {excl : Option String} {b : Booking} :
    conflictRow roomId date startT endT excl b = true ↔
      b.roomId = roomId ∧ b.date = date ∧ b.status = .active ∧
      ((strLt b.startTime endT = true ∧ strLt startT b.endTime = true) ∨
       (strLt b.startTime endT = true ∧ strLt endT b.endTime = true) ∨
       (strLt b.startTime startT = false ∧ strLt endT b.endTime = false)) ∧
      (∀ x, excl = some x → b.bookingId ≠ x) := by
  cases excl <;>
    simp [conflictRow, overlapsQuery, and_assoc, or_assoc, beq_iff_eq, bne_iff_ne,
      Bool.not_eq_true']

/-- The same reading with the comparisons resolved to times, valid when the
window bounds and the row's stored times are canonical. -/
lemma conflictRow_canonical_iff {roomId date : Nat} {startT endT : String}
    {excl : Option String} {b : Booking}
    (hs : canonicalTime startT) (he : canonicalTime endT)
    (hb1 : canonicalTime b.startTime) (hb2 : canonicalTime b.endTime) :
    conflictRow roomId date startT endT excl b = true ↔
      b.roomId = roomId ∧ b.date = date ∧ b.status = .active ∧
      ((timeToMin b.startTime < timeToMin endT ∧ timeToMin startT < timeToMin b.endTime) ∨
       (timeToMin b.startTime < timeToMin endT ∧ timeToMin endT < timeToMin b.endTime) ∨
       (timeToMin startT ≤ timeToMin b.startTime ∧ timeToMin b.endTime ≤ timeToMin endT)) ∧
      (∀ x, excl = some x → b.bookingId ≠ x) := by
  rw [conflictRow_eq_true_iff, strLt_canonical hb1 he, strLt_canonical hs hb2,
    strLt_canonical he hb2, strLt_canonical_false hb1 hs, strLt_canonical_false he hb2]

/-- The availability check succeeds exactly when no row matches the conflict
query. -/
lemma checkRoomAvailability_eq_true_iff {store : Store} {roomId date : Nat}
    {startT endT : String} {excl : Option String} :
    checkRoomAvailability store roomId date startT endT excl = true ↔
      ∀ b ∈ store, ¬ (conflictRow roomId date startT endT excl b = true) := by
  simp [checkRoomAvailability, List.countP_eq_zero]

/-- A successful insert appends the row and certifies the id was fresh. -/
lemma createBooking_eq_some {store : Store} {b : Booking} {s' : Store}
    (h : createBooking store b = some s') :
    s' = store ++ [b] ∧ ∀ x ∈ store, x.bookingId ≠ b.bookingId := by
  unfold createBooking at h
  split at h
  · simp at h
  · next hany =>
    simp only [Option.some.injEq] at h
    refine ⟨h.symm, fun x hx => ?_⟩
    simp only [List.any_eq_true, not_exists, not_and] at hany
    have := hany x hx
    simpa [beq_iff_eq] using this

/-- The row getBookingById returns is a member of the store. -/
lemma getBookingById_mem {store : Store} {id : String} {b : Booking}
    (h : getBookingById store id = some b) : b ∈ store :=
  List.mem_of_find?_eq_some h

/-- The row getBookingById returns carries the requested id. -/
lemma getBookingById_id {store : Store} {id : String} {b : Booking}
    (h : getBookingById store id = some b) : b.bookingId = id := by
  have := List.find?_some h
  simpa [beq_iff_eq] using this

/-- The row getRoomById returns carries the requested id. -/
lemma getRoomById_id {rooms : List Room} {rid : Nat} {room : Room}
    (h : getRoomById rooms rid = some room) : room.id = rid := by
  have := List.find?_some h
  simpa [beq_iff_eq] using this

/-- C2 counterexample, both failure modes of the claimed equivalence.  First,
with the parser-accepted non-padded window 9:30-11:30, the query misses the
strictly overlapping active 10:00-11:00 row and reports the room available:
under the BINARY TEXT order "11:00" > "9:30" is false.  Second, for the
degenerate canonical window 11:40-00:10 the query reports a conflict with the
row 00:05-00:20, which does not strictly overlap it (the second disjunct
fires), although that row has start before end. -/
theorem checkRoomAvailability_ne_strict_overlap_check :
    (bkTenEleven.roomId = 1 ∧ bkTenEleven.date = 0 ∧ bkTenEleven.status = .active ∧
     timeToMin "9:30" < timeToMin "11:30" ∧
     timeToMin bkTenEleven.startTime < timeToMin "11:30" ∧
     timeToMin "9:30" < timeToMin bkTenEleven.endTime ∧
     checkRoomAvailability [bkTenEleven] 1 0 "9:30" "11:30" none = true) ∧
    (exBookingC2.roomId = 1 ∧ exBookingC2.date = 0 ∧ exBookingC2.status = .active ∧
     timeToMin exBookingC2.startTime < timeToMin exBookingC2.endTime ∧
     ¬ (timeToMin exBookingC2.startTime < timeToMin "00:10" ∧
        timeToMin "11:40" < timeToMin exBookingC2.endTime) ∧
     checkRoomAvailability [exBookingC2] 1 0 "11:40" "00:10" none = false) := by
  decide

/-- C2 amended.  When the candidate bounds and every stored time string are
canonical zero-padded HH:mm values (so the BINARY TEXT order is the time
order), the candidate window has start before end and every stored row has
start before end, checkRoomAvailability returns true exactly when no other
active row of the same room and date strictly overlaps the window; in
particular rows merely touching an endpoint never conflict. -/
theorem checkRoomAvailability_iff_no_strict_overlap
    (store : Store) (roomId date : Nat) (startT endT : String) (excl : Option String)
    (hs : canonicalTime startT) (he : canonicalTime endT)
    (hwin : timeToMin startT < timeToMin endT)
    (hvalid : ∀ b ∈ store, canonicalTime b.startTime ∧ canonicalTime b.endTime ∧
      timeToMin b.startTime < timeToMin b.endTime) :
    checkRoomAvailability store roomId date startT endT excl = true ↔
      ∀ b ∈ store, b.roomId = roomId → b.date = date → b.status = .active →
        (∀ x, excl = some x → b.bookingId ≠ x) →
        ¬ (timeToMin b.startTime < timeToMin endT ∧
           timeToMin startT < timeToMin b.endTime) := by
  rw [checkRoomAvailability_eq_true_iff]
  constructor
  · intro h b hb h1 h2 h3 h4 hov
    obtain ⟨hb1, hb2, _⟩ := hvalid b hb
    exact h b hb ((conflictRow_canonical_iff hs he hb1 hb2).mpr
      ⟨h1, h2, h3, Or.inl hov, h4⟩)
  · intro h b hb hc
    obtain ⟨hb1, hb2, hb3⟩ := hvalid b hb
    obtain ⟨h1, h2, h3, hov, h4⟩ := (conflictRow_canonical_iff hs he hb1 hb2).mp hc
    have hno := h b hb h1 h2 h3 h4
    omega

/-- Witness for the amended C2 statement: the spec boundary example, a
candidate 09:00-10:00 against an existing 10:00-11:00 booking, is available. -/
theorem checkRoomAvailability_iff_no_strict_overlap_witness :
    checkRoomAvailability [bkTenEleven] 1 0 "09:00" "10:00" none = true := by
  rw [checkRoomAvailability_iff_no_strict_overlap [bkTenEleven] 1 0 "09:00" "10:00"
    none (by constructor <;> decide) (by constructor <;> decide) (by decide) (by decide)]
  decide

/-- C3.  A book of room A at 23:30 for 60 minutes passes the parser and every
policy check (duration 60 lies inside the policy bounds, start hour 23 is not
below 9, wrapped end hour 0 is not above 18) and succeeds, yet the stored row
has end time 00:30 denoting an instant strictly before its start time 23:30
on the same stored date: the single-calendar-day invariant claimed by the
spec is violated by the code on midnight-crossing durations. -/
theorem book_crossing_midnight_breaks_day_invariant :
    policyStd.minDurationMinutes ≤ bookArgsC3.duration ∧
    bookArgsC3.duration ≤ policyStd.maxDurationMinutes ∧
    (handleBookCommand policyStd [roomA] [] 0 bookArgsC3 "u@x" "U" "R-1").1.success = true ∧
    ∃ b ∈ (handleBookCommand policyStd [roomA] [] 0 bookArgsC3 "u@x" "U" "R-1").2,
      timeToMin b.endTime < timeToMin b.startTime := by
  decide

/-- C4 counterexample.  handleMoveCommand never consults the clock: with the
current instant 100000 the move of booking R-1 to day 0 at 09:00 (proposed
start instant 540, far in the past) succeeds and rewrites the row instead of
failing with a past-time policy failure. -/
theorem move_accepts_past_start :
    0 * 1440 + timeToMin "09:00" < 100000 ∧
    (handleMoveCommand [roomA] [pastBooking] "R-1" 0 "09:00" "u@x").1.success = true ∧
    (handleMoveCommand [roomA] [pastBooking] "R-1" 0 "09:00" "u@x").2 ≠ [pastBooking] := by
  decide

/-- C4 amended, book half: when the room exists and the proposed start
instant is strictly before the current instant, book fails with PAST_TIME and
the store is unchanged (move, by contrast, performs no past-time check at
all). -/
theorem book_rejects_past_start (policy : BookingPolicy) (rooms : List Room)
    (store : Store) (now : Nat) (args : BookArgs) (we wn newId : String) (room : Room)
    (hroom : getRoomByName rooms args.roomName = some room)
    (hpast : args.date * 1440 + timeToMin args.startTime < now) :
    handleBookCommand policy rooms store now args we wn newId
      = ({ success := false, errCode := some .PAST_TIME, details := none }, store) := by
  simp [handleBookCommand, hroom, hpast]

/-- Witness for the book half of the amended C4 statement. -/
theorem book_rejects_past_start_witness :
    handleBookCommand policyStd [roomA] [] 100000 bookArgsC3 "u@x" "U" "R-9"
      = ({ success := false, errCode := some .PAST_TIME, details := none }, []) :=
  book_rejects_past_start policyStd [roomA] [] 100000 bookArgsC3 "u@x" "U" "R-9" roomA
    (by decide) (by decide)

/-- C8 counterexample.  Cancelling another requester's cancelled booking is
answered with INVALID_STATUS, not with the distinct authorization failure the
claim requires for every cancel naming a foreign booking: the status check
runs before the ownership check in handleCancelCommand. -/
theorem cancel_foreign_nonactive_not_unauthorized :
    getBookingById [cancelledByAlice] "R-1" = some cancelledByAlice ∧
    cancelledByAlice.requestedBy ≠ "bob@x" ∧
    handleCancelCommand [cancelledByAlice] "R-1" "bob@x"
      = ({ success := false, errCode := some .INVALID_STATUS, details := none },
         [cancelledByAlice]) := by
  decide

/-- C9 amended, count half: every call of the orchestrator, for every parse
outcome, every dispatched command and also the caught-crash path, appends
exactly one audit row before returning. -/
theorem handleCommand_appends_one_audit_row (policy : BookingPolicy)
    (rooms : List Room) (store : Store) (now : Nat) (payload : Payload)
    (parse : ParseOutcome) (newId : String) (crash : Option String)
    (startClock endClock : Nat) :
    (handleCommand policy rooms store now payload parse newId crash
      startClock endClock).2.2.length = 1 := by
  cases parse <;> rfl

/-- C9 counterexample.  Two calls identical except for the elapsed processing
time (5 versus 500 clock units) produce identical audit rows: the audit entry
does not include the elapsed time; the source hands the duration only to the
process logger. -/
theorem audit_row_lacks_elapsed_time :
    (5 : Nat) ≠ 500 ∧
    (handleCommand policyStd [roomA] [] 0 payloadEx (.parsed .helpCmd) "R-1" none 0 5).2.2
      = (handleCommand policyStd [roomA] [] 0 payloadEx (.parsed .helpCmd) "R-1" none
          0 500).2.2 := by
  decide

/-- The store after a book is the old store or the old store with the new row
appended after a passing availability check and a fresh id. -/
lemma handleBookCommand_store (policy : BookingPolicy) (rooms : List Room)
    (store : Store) (now : Nat) (args : BookArgs) (we wn newId : String) :
    (handleBookCommand policy rooms store now args we wn newId).2 = store ∨
    ∃ room, getRoomByName rooms args.roomName = some room ∧
      checkRoomAvailability store room.id args.date args.startTime
        (minToTime ((args.date * 1440 + timeToMin args.startTime + args.duration)
          % 1440)) none = true ∧
      (∀ x ∈ store, x.bookingId ≠ newId) ∧
      (handleBookCommand policy rooms store now args we wn newId).2
        = store ++ [newBooking room args we wn newId] := by
  unfold handleBookCommand
  cases hroom : getRoomByName rooms args.roomName with
  | none => simp
  | some room =>
    dsimp only
    split
    · simp
    · split
      · simp
      · split
        · next havail =>
          cases hcb : createBooking store (newBooking room args we wn newId) with
          | none => simp
          | some s =>
            obtain ⟨hs, hfresh⟩ := createBooking_eq_some hcb
            exact Or.inr ⟨room, rfl, havail, fun x hx => hfresh x hx, by simp [hs]⟩
        · simp

/-- The store after a cancel is the old store or the status update of an
active row owned by the requester. -/
lemma handleCancelCommand_store (store : Store) (id we : String) :
    (handleCancelCommand store id we).2 = store ∨
    ∃ b, getBookingById store id = some b ∧ b.status = .active ∧ b.requestedBy = we ∧
      (handleCancelCommand store id we).2 = updateBookingStatus store id .cancelled := by
  unfold handleCancelCommand
  cases hfind : getBookingById store id with
  | none => simp
  | some b =>
    dsimp only
    split
    · simp
    · next hstat =>
      split
      · simp
      · next hown =>
        exact Or.inr ⟨b, rfl, not_not.mp hstat, not_not.mp hown, rfl⟩

/-- The store after a move is the old store or the time update of a row owned
by the requester, after a passing availability check at the new window that
excludes the row itself. -/
lemma handleMoveCommand_store (rooms : List Room) (store : Store) (id : String)
    (d : Nat) (s : String) (we : String) :
    (handleMoveCommand rooms store id d s we).2 = store ∨
    ∃ b room, getBookingById store id = some b ∧ b.requestedBy = we ∧
      getRoomById rooms b.roomId = some room ∧
      checkRoomAvailability store room.id d s
        (minToTime ((d * 1440 + timeToMin s + b.durationMinutes) % 1440))
        (some id) = true ∧
      (handleMoveCommand rooms store id d s we).2
        = updateBookingTime store id d s
            (minToTime ((d * 1440 + timeToMin s + b.durationMinutes) % 1440)) := by
  unfold handleMoveCommand
  cases hfind : getBookingById store id with
  | none => simp
  | some b =>
    dsimp only
    split
    · simp
    · next hown =>
      cases hroom : getRoomById rooms b.roomId with
      | none => simp
      | some room =>
        dsimp only
        split
        · next havail =>
          exact Or.inr ⟨b, room, rfl, not_not.mp hown, hroom, havail, rfl⟩
        · simp

/-- The store after an extend is the old store or the end-time update of a
row owned by the requester, under the max-duration bound, after a passing
availability check over the delta window that excludes the row itself. -/
lemma handleExtendCommand_store (policy : BookingPolicy) (rooms : List Room)
    (store : Store) (id : String) (add : Nat) (we : String) :
    (handleExtendCommand policy rooms store id add we).2 = store ∨
    ∃ b room, getBookingById store id = some b ∧ b.requestedBy = we ∧
      getRoomById rooms b.roomId = some room ∧
      b.durationMinutes + add ≤ policy.maxDurationMinutes ∧
      checkRoomAvailability store room.id b.date b.endTime
        (minToTime ((b.date * 1440 + timeToMin b.endTime + add) % 1440))
        (some id) = true ∧
      (handleExtendCommand policy rooms store id add we).2
        = updateBookingEndTime store id
            (minToTime ((b.date * 1440 + timeToMin b.endTime + add) % 1440))
            (b.durationMinutes + add) := by
  unfold handleExtendCommand
  cases hfind : getBookingById store id with
  | none => simp
  | some b =>
    dsimp only
    split
    · simp
    · next hown =>
      cases hroom : getRoomById rooms b.roomId with
      | none => simp
      | some room =>
        dsimp only
        split
        · simp
        · next hmax =>
          split
          · next havail =>
            exact Or.inr ⟨b, room, rfl, not_not.mp hown, hroom, Nat.le_of_not_lt hmax,
              havail, rfl⟩
          · simp

/-- okPair is a symmetric relation. -/
lemma okPair_symm : Symmetric okPair := by
  intro a b h
  exact ⟨fun e => h.1 e.symm,
    fun hb ha hr hd hov => h.2 ha hb hr.symm hd.symm ⟨hov.2, hov.1⟩⟩

/-- In a consistent store, two members sharing a booking id are equal. -/
lemma Inv.id_unique {store : Store} (h : Inv store) {a b : Booking}
    (ha : a ∈ store) (hb : b ∈ store) (hid : a.bookingId = b.bookingId) : a = b := by
  by_contra hne
  exact (List.Pairwise.forall okPair_symm h.1 ha hb hne).1 hid

/-- A successful book with a canonical start token preserves the invariant:
the new row cannot strictly overlap any active canonical row of the same
room and date because the first SQL disjunct of the availability query is
exactly that overlap under the canonical-order correspondence. -/
lemma Inv.book {store : Store} (h : Inv store) (policy : BookingPolicy)
    (rooms : List Room) (now : Nat) (args : BookArgs) (we wn newId : String)
    (hc : canonicalTime args.startTime) :
    Inv (handleBookCommand policy rooms store now args we wn newId).2 := by
  rcases handleBookCommand_store policy rooms store now args we wn newId with
    hst | ⟨room, hroom, havail, hfresh, hst⟩ <;> rw [hst]
  · exact h
  · have havail' := checkRoomAvailability_eq_true_iff.mp havail
    have hend : canonicalTime (minToTime ((args.date * 1440 + timeToMin args.startTime
        + args.duration) % 1440)) := canonicalTime_minToTime (Nat.mod_lt _ (by omega))
    constructor
    · rw [List.pairwise_append]
      refine ⟨h.1, List.pairwise_singleton _ _, ?_⟩
      intro a ha c hcm
      rw [List.mem_singleton] at hcm
      subst hcm
      refine ⟨hfresh a ha, ?_⟩
      intro ha1 hc1 hr hd hov
      have hr' : a.roomId = room.id := hr
      have hd' : a.date = args.date := hd
      obtain ⟨hb1, hb2⟩ := h.2 a ha
      have hov' : timeToMin a.startTime < timeToMin (minToTime ((args.date * 1440
          + timeToMin args.startTime + args.duration) % 1440)) ∧
          timeToMin args.startTime < timeToMin a.endTime := hov
      exact havail' a ha ((conflictRow_canonical_iff hc hend hb1 hb2).mpr
        ⟨hr', hd', ha1, Or.inl hov', fun x hx => by cases hx⟩)
    · intro b hb
      rcases List.mem_append.mp hb with hb | hb
      · exact h.2 b hb
      · rw [List.mem_singleton] at hb
        subst hb
        exact ⟨hc, hend⟩

/-- A successful cancel preserves the invariant: the updated row leaves the
active set and no time string changes. -/
lemma Inv.cancel {store : Store} (h : Inv store) (id we : String) :
    Inv (handleCancelCommand store id we).2 := by
  rcases handleCancelCommand_store store id we with hst | ⟨b, _, _, _, hst⟩ <;> rw [hst]
  · exact h
  · constructor
    · unfold updateBookingStatus
      rw [List.pairwise_map]
      refine h.1.imp ?_
      rintro a c ⟨hid, hnc⟩
      by_cases h1 : a.bookingId = id <;> by_cases h2 : c.bookingId = id
      · exact absurd (h1.trans h2.symm) hid
      · rw [if_pos h1, if_neg h2]
        exact ⟨hid, fun hs1 => by cases hs1⟩
      · rw [if_neg h1, if_pos h2]
        exact ⟨hid, fun hs1 hs2 => by cases hs2⟩
      · rw [if_neg h1, if_neg h2]
        exact ⟨hid, hnc⟩
    · intro b2 hb2
      unfold updateBookingStatus at hb2
      obtain ⟨x, hx, hfx⟩ := List.mem_map.mp hb2
      obtain ⟨h1, h2⟩ := h.2 x hx
      by_cases hxid : x.bookingId = id
      · rw [if_pos hxid] at hfx
        subst hfx
        exact ⟨h1, h2⟩
      · rw [if_neg hxid] at hfx
        subst hfx
        exact ⟨h1, h2⟩

/-- A successful move with a canonical start token preserves the invariant:
the moved row was checked for availability at its full new window with
itself excluded, and the first SQL disjunct is exactly strict overlap with
the new window under the canonical-order correspondence. -/
lemma Inv.move {store : Store} (h : Inv store) (rooms : List Room) (id : String)
    (d : Nat) (s : String) (we : String) (hc : canonicalTime s) :
    Inv (handleMoveCommand rooms store id d s we).2 := by
  rcases handleMoveCommand_store rooms store id d s we with
    hst | ⟨b, room, hfind, hown, hroom, havail, hst⟩ <;> rw [hst]
  · exact h
  · have hbmem := getBookingById_mem hfind
    have hbid := getBookingById_id hfind
    have hrid := getRoomById_id hroom
    have havail' := checkRoomAvailability_eq_true_iff.mp havail
    have hend : canonicalTime (minToTime ((d * 1440 + timeToMin s
        + b.durationMinutes) % 1440)) := canonicalTime_minToTime (Nat.mod_lt _ (by omega))
    constructor
    · unfold updateBookingTime
      rw [List.pairwise_map]
      refine h.1.imp_of_mem ?_
      rintro a c ha hcm ⟨hid, hnc⟩
      by_cases h1 : a.bookingId = id <;> by_cases h2 : c.bookingId = id
      · exact absurd (h1.trans h2.symm) hid
      · have haeq : a = b := h.id_unique ha hbmem (h1.trans hbid.symm)
        rw [if_pos h1, if_neg h2]
        refine ⟨hid, ?_⟩
        intro hs1 hs2 hr hd hov
        have hr' : a.roomId = c.roomId := hr
        have hd' : d = c.date := hd
        have hs2' : c.status = .active := hs2
        obtain ⟨hc1, hc2⟩ := h.2 c hcm
        have hov' : timeToMin s < timeToMin c.endTime ∧
            timeToMin c.startTime < timeToMin (minToTime ((d * 1440 + timeToMin s
              + b.durationMinutes) % 1440)) := hov
        refine havail' c hcm ((conflictRow_canonical_iff hc hend hc1 hc2).mpr
          ⟨by rw [← hr', haeq, hrid], hd'.symm, hs2', Or.inl ⟨hov'.2, hov'.1⟩,
           fun x hx => by cases hx; exact h2⟩)
      · have hceq : c = b := h.id_unique hcm hbmem (h2.trans hbid.symm)
        rw [if_neg h1, if_pos h2]
        refine ⟨hid, ?_⟩
        intro hs1 hs2 hr hd hov
        have hr' : a.roomId = c.roomId := hr
        have hd' : a.date = d := hd
        have hs1' : a.status = .active := hs1
        obtain ⟨ha1, ha2⟩ := h.2 a ha
        have hov' : timeToMin a.startTime < timeToMin (minToTime ((d * 1440
            + timeToMin s + b.durationMinutes) % 1440)) ∧
            timeToMin s < timeToMin a.endTime := hov
        refine havail' a ha ((conflictRow_canonical_iff hc hend ha1 ha2).mpr
          ⟨by rw [hr', hceq, hrid], hd', hs1', Or.inl hov',
           fun x hx => by cases hx; exact h1⟩)
      · rw [if_neg h1, if_neg h2]
        exact ⟨hid, hnc⟩
    · intro b2 hb2
      unfold updateBookingTime at hb2
      obtain ⟨x, hx, hfx⟩ := List.mem_map.mp hb2
      obtain ⟨h1, h2⟩ := h.2 x hx
      by_cases hxid : x.bookingId = id
      · rw [if_pos hxid] at hfx
        subst hfx
        exact ⟨hc, hend⟩
      · rw [if_neg hxid] at hfx
        subst hfx
        exact ⟨h1, h2⟩

/-- A successful extend preserves the invariant: the delta window from the
old end to the new end was checked with the row itself excluded, and
together with the old invariant the first and third SQL disjuncts rule out
any strict overlap of the enlarged interval. -/
lemma Inv.extendBooking {store : Store} (h : Inv store) (policy : BookingPolicy)
    (rooms : List Room) (id : String) (add : Nat) (we : String) :
    Inv (handleExtendCommand policy rooms store id add we).2 := by
  rcases handleExtendCommand_store policy rooms store id add we with
    hst | ⟨b, room, hfind, hown, hroom, hmax, havail, hst⟩ <;> rw [hst]
  · exact h
  · have hbmem := getBookingById_mem hfind
    have hbid := getBookingById_id hfind
    have hrid := getRoomById_id hroom
    have havail' := checkRoomAvailability_eq_true_iff.mp havail
    obtain ⟨hbs, hbe⟩ := h.2 b hbmem
    have hend : canonicalTime (minToTime ((b.date * 1440 + timeToMin b.endTime
        + add) % 1440)) := canonicalTime_minToTime (Nat.mod_lt _ (by omega))
    constructor
    · unfold updateBookingEndTime
      rw [List.pairwise_map]
      refine h.1.imp_of_mem ?_
      rintro a c ha hcm ⟨hid, hnc⟩
      by_cases h1 : a.bookingId = id <;> by_cases h2 : c.bookingId = id
      · exact absurd (h1.trans h2.symm) hid
      · have haeq : a = b := h.id_unique ha hbmem (h1.trans hbid.symm)
        rw [if_pos h1, if_neg h2]
        refine ⟨hid, ?_⟩
        intro hs1 hs2 hr hd hov
        have hs1' : a.status = .active := hs1
        have hs2' : c.status = .active := hs2
        have hr' : a.roomId = c.roomId := hr
        have hd' : a.date = c.date := hd
        obtain ⟨hc1, hc2⟩ := h.2 c hcm
        have hov' : timeToMin a.startTime < timeToMin c.endTime ∧
            timeToMin c.startTime < timeToMin (minToTime ((b.date * 1440
              + timeToMin b.endTime + add) % 1440)) := hov
        have hold : ¬ strictOverlap a c := hnc hs1' hs2' hr' hd'
        rw [strictOverlap] at hold
        have hnoc : ¬ ((timeToMin c.startTime < timeToMin (minToTime ((b.date * 1440
              + timeToMin b.endTime + add) % 1440)) ∧
              timeToMin b.endTime < timeToMin c.endTime) ∨
            (timeToMin c.startTime < timeToMin (minToTime ((b.date * 1440
              + timeToMin b.endTime + add) % 1440)) ∧
              timeToMin (minToTime ((b.date * 1440 + timeToMin b.endTime + add)
                % 1440)) < timeToMin c.endTime) ∨
            (timeToMin b.endTime ≤ timeToMin c.startTime ∧
              timeToMin c.endTime ≤ timeToMin (minToTime ((b.date * 1440
                + timeToMin b.endTime + add) % 1440)))) := by
          intro hdisj
          exact havail' c hcm ((conflictRow_canonical_iff hbe hend hc1 hc2).mpr
            ⟨by rw [← hr', haeq, hrid], by rw [← hd', haeq], hs2', hdisj,
             fun x hx => by cases hx; exact h2⟩)
        rw [haeq] at hold hov'
        omega
      · have hceq : c = b := h.id_unique hcm hbmem (h2.trans hbid.symm)
        rw [if_neg h1, if_pos h2]
        refine ⟨hid, ?_⟩
        intro hs1 hs2 hr hd hov
        have hs1' : a.status = .active := hs1
        have hs2' : c.status = .active := hs2
        have hr' : a.roomId = c.roomId := hr
        have hd' : a.date = c.date := hd
        obtain ⟨ha1, ha2⟩ := h.2 a ha
        have hov' : timeToMin a.startTime < timeToMin (minToTime ((b.date * 1440
            + timeToMin b.endTime + add) % 1440)) ∧
            timeToMin c.startTime < timeToMin a.endTime := hov
        have hold : ¬ strictOverlap a c := hnc hs1' hs2' hr' hd'
        rw [strictOverlap] at hold
        have hnoc : ¬ ((timeToMin a.startTime < timeToMin (minToTime ((b.date * 1440
              + timeToMin b.endTime + add) % 1440)) ∧
              timeToMin b.endTime < timeToMin a.endTime) ∨
            (timeToMin a.startTime < timeToMin (minToTime ((b.date * 1440
              + timeToMin b.endTime + add) % 1440)) ∧
              timeToMin (minToTime ((b.date * 1440 + timeToMin b.endTime + add)
                % 1440)) < timeToMin a.endTime) ∨
            (timeToMin b.endTime ≤ timeToMin a.startTime ∧
              timeToMin a.endTime ≤ timeToMin (minToTime ((b.date * 1440
                + timeToMin b.endTime + add) % 1440)))) := by
          intro hdisj
          exact havail' a ha ((conflictRow_canonical_iff hbe hend ha1 ha2).mpr
            ⟨by rw [hr', hceq, hrid], by rw [hd', hceq], hs1', hdisj,
             fun x hx => by cases hx; exact h1⟩)
        rw [hceq] at hold hov'
        omega
      · rw [if_neg h1, if_neg h2]
        exact ⟨hid, hnc⟩
    · intro b2 hb2
      unfold updateBookingEndTime at hb2
      obtain ⟨x, hx, hfx⟩ := List.mem_map.mp hb2
      obtain ⟨h1, h2⟩ := h.2 x hx
      by_cases hxid : x.bookingId = id
      · rw [if_pos hxid] at hfx
        subst hfx
        exact ⟨h1, hend⟩
      · rw [if_neg hxid] at hfx
        subst hfx
        exact ⟨h1, h2⟩

/-- Every single canonical operation preserves the invariant. -/
lemma Inv.applyOp {store : Store} (h : Inv store) (policy : BookingPolicy)
    (rooms : List Room) {op : Op} (hop : opCanonical op) :
    Inv (applyOp policy rooms store op) := by
  cases op with
  | bookOp now args we wn newId => exact h.book policy rooms now args we wn newId hop
  | cancelOp id we => exact h.cancel id we
  | moveOp id d s we => exact h.move rooms id d s we hop
  | extendOp id add we => exact h.extendBooking policy rooms id add we

/-- Every sequence of canonical operations preserves the invariant. -/
lemma Inv.run {store : Store} (policy : BookingPolicy) (rooms : List Room)
    {ops : List Op} (h : Inv store) (hops : ∀ op ∈ ops, opCanonical op) :
    Inv (run policy rooms store ops) := by
  induction ops generalizing store with
  | nil => exact h
  | cons op ops ih =>
      exact ih (h.applyOp policy rooms (hops op (List.mem_cons_self op ops)))
        (fun o ho => hops o (List.mem_cons_of_mem op ho))

/-- C1 counterexample.  From the empty store, booking room A 10:00-11:00 and
then booking the parser-accepted non-padded token 9:30 for 120 minutes on the
same room and day leaves two distinct active bookings whose intervals
strictly overlap: the conflict query compares the raw token under the BINARY
TEXT order, where "11:00" > "9:30" is false, so the second book passes the
availability check. -/
theorem run_overlap_counterexample :
    ∃ a ∈ run policyStd [roomA] []
      [Op.bookOp 0 bookArgsOK "u@x" "U" "R-1", Op.bookOp 0 bookArgsBad "u@x" "U" "R-2"],
    ∃ b ∈ run policyStd [roomA] []
      [Op.bookOp 0 bookArgsOK "u@x" "U" "R-1", Op.bookOp 0 bookArgsBad "u@x" "U" "R-2"],
      a.bookingId ≠ b.bookingId ∧ a.status = .active ∧ b.status = .active ∧
      a.roomId = b.roomId ∧ a.date = b.date ∧
      timeToMin a.startTime < timeToMin b.endTime ∧
      timeToMin b.startTime < timeToMin a.endTime := by
  decide

/-- C1 amended.  For every room and every date, the intervals of active
bookings on that room and date are pairwise non-overlapping in every store
reached by a sequential execution of book, cancel, move and extend
operations from the empty store, provided every book and move operation
supplies a canonical zero-padded in-range start token (on which the BINARY
TEXT order the conflict query uses coincides with time order). -/
theorem run_active_intervals_pairwise_nonoverlapping (policy : BookingPolicy)
    (rooms : List Room) (ops : List Op)
    (hops : ∀ op ∈ ops, opCanonical op) :
    (run policy rooms [] ops).Pairwise (fun a b =>
      a.status = .active → b.status = .active → a.roomId = b.roomId →
        a.date = b.date → ¬ strictOverlap a b) := by
  have h0 : Inv ([] : Store) :=
    ⟨List.Pairwise.nil, fun b hb => absurd hb (List.not_mem_nil b)⟩
  exact (Inv.run policy rooms h0 hops).1.imp (fun hp => hp.2)

/-- Witness for the amended C1 statement at a canonical two-operation run. -/
theorem run_active_intervals_witness :
    (run policyStd [roomA] []
      [Op.bookOp 0 bookArgsOK "u@x" "U" "R-1", Op.cancelOp "R-1" "u@x"]).Pairwise
      (fun a b =>
        a.status = .active → b.status = .active → a.roomId = b.roomId →
          a.date = b.date → ¬ strictOverlap a b) :=
  run_active_intervals_pairwise_nonoverlapping policyStd [roomA]
    [Op.bookOp 0 bookArgsOK "u@x" "U" "R-1", Op.cancelOp "R-1" "u@x"] (by decide)

/-- Equation for extend once the booking is found, owned by the requester,
its room exists and the max-duration bound holds: the outcome reduces to the
availability check over exactly the delta window from the old end to the new
end with the booking's own id excluded, followed by the end-time and duration
rewrite. -/
lemma handleExtendCommand_eq (policy : BookingPolicy) (rooms : List Room)
    (store : Store) (id : String) (add : Nat) (we : String) (booking : Booking)
    (room : Room)
    (hfind : getBookingById store id = some booking)
    (hown : booking.requestedBy = we)
    (hroom : getRoomById rooms booking.roomId = some room)
    (hmax : booking.durationMinutes + add ≤ policy.maxDurationMinutes) :
    handleExtendCommand policy rooms store id add we
      = if checkRoomAvailability store room.id booking.date booking.endTime
            (minToTime ((booking.date * 1440 + timeToMin booking.endTime + add)
              % 1440)) (some id)
        then ({ success := true, errCode := none, details := none },
              updateBookingEndTime store id
                (minToTime ((booking.date * 1440 + timeToMin booking.endTime + add)
                  % 1440))
                (booking.durationMinutes + add))
        else ({ success := false, errCode := some .CONFLICT, details := none }, store) := by
  unfold handleExtendCommand
  rw [hfind]
  dsimp only
  rw [if_neg (not_not_intro hown), hroom]
  dsimp only
  rw [if_neg (Nat.not_lt.mpr hmax)]

/-- Equation for move once the booking is found, owned by the requester and
its room exists: the outcome reduces to the availability check at the full
new window with the booking's own id excluded, followed by the time rewrite. -/
lemma handleMoveCommand_eq (rooms : List Room) (store : Store) (id : String)
    (d : Nat) (s : String) (we : String) (booking : Booking) (room : Room)
    (hfind : getBookingById store id = some booking)
    (hown : booking.requestedBy = we)
    (hroom : getRoomById rooms booking.roomId = some room) :
    handleMoveCommand rooms store id d s we
      = if checkRoomAvailability store room.id d s
            (minToTime ((d * 1440 + timeToMin s + booking.durationMinutes) % 1440))
            (some id)
        then ({ success := true, errCode := none, details := none },
              updateBookingTime store id d s
                (minToTime ((d * 1440 + timeToMin s + booking.durationMinutes) % 1440)))
        else ({ success := false, errCode := some .CONFLICT, details := none }, store) := by
  unfold handleMoveCommand
  rw [hfind]
  dsimp only
  rw [if_neg (not_not_intro hown), hroom]

/-- A cancel of a non-active booking fails with INVALID_STATUS and leaves the
store unchanged. -/
lemma handleCancelCommand_nonactive (store : Store) (id we : String)
    (booking : Booking) (hfind : getBookingById store id = some booking)
    (hstat : booking.status ≠ .active) :
    handleCancelCommand store id we
      = ({ success := false, errCode := some .INVALID_STATUS, details := none }, store) := by
  unfold handleCancelCommand
  rw [hfind]
  dsimp only
  rw [if_pos hstat]

/-- A move either leaves the store unchanged or reports success. -/
lemma handleMoveCommand_store_or_success (rooms : List Room) (store : Store)
    (id : String) (d : Nat) (s : String) (we : String) :
    (handleMoveCommand rooms store id d s we).2 = store ∨
    (handleMoveCommand rooms store id d s we).1.success = true := by
  unfold handleMoveCommand
  cases getBookingById store id with
  | none => exact Or.inl rfl
  | some b =>
    dsimp only
    split
    · exact Or.inl rfl
    · cases getRoomById rooms b.roomId with
      | none => exact Or.inl rfl
      | some room =>
        dsimp only
        split
        · exact Or.inr rfl
        · exact Or.inl rfl

/-- An extend either leaves the store unchanged or reports success. -/
lemma handleExtendCommand_store_or_success (policy : BookingPolicy)
    (rooms : List Room) (store : Store) (id : String) (add : Nat) (we : String) :
    (handleExtendCommand policy rooms store id add we).2 = store ∨
    (handleExtendCommand policy rooms store id add we).1.success = true := by
  unfold handleExtendCommand
  cases getBookingById store id with
  | none => exact Or.inl rfl
  | some b =>
    dsimp only
    split
    · exact Or.inl rfl
    · cases getRoomById rooms b.roomId with
      | none => exact Or.inl rfl
      | some room =>
        dsimp only
        split
        · exact Or.inl rfl
        · split
          · exact Or.inr rfl
          · exact Or.inl rfl

/-- C5.  A successful extend checks availability exactly over the delta
window from the old end to the new end with the booking's own id excluded,
then rewrites the end time and stores duration old + additional. -/
theorem extend_checks_delta_and_rewrites (policy : BookingPolicy)
    (rooms : List Room) (store : Store) (id : String) (add : Nat) (we : String)
    (booking : Booking) (room : Room)
    (hfind : getBookingById store id = some booking)
    (hown : booking.requestedBy = we)
    (hroom : getRoomById rooms booking.roomId = some room)
    (hmax : booking.durationMinutes + add ≤ policy.maxDurationMinutes) :
    handleExtendCommand policy rooms store id add we
      = if checkRoomAvailability store room.id booking.date booking.endTime
            (minToTime ((booking.date * 1440 + timeToMin booking.endTime + add)
              % 1440)) (some id)
        then ({ success := true, errCode := none, details := none },
              updateBookingEndTime store id
                (minToTime ((booking.date * 1440 + timeToMin booking.endTime + add)
                  % 1440))
                (booking.durationMinutes + add))
        else ({ success := false, errCode := some .CONFLICT, details := none }, store) :=
  handleExtendCommand_eq policy rooms store id add we booking room hfind hown hroom hmax

/-- Witness for C5: extending the 10:00-11:00 booking by 30 minutes checks
the free window 11:00-11:30 and stores end 11:30 with duration 90. -/
theorem extend_checks_delta_and_rewrites_witness :
    handleExtendCommand policyStd [roomA] [bkTenEleven] "R-A" 30 "alice@x"
      = ({ success := true, errCode := none, details := none },
         updateBookingEndTime [bkTenEleven] "R-A" "11:30" 90) := by
  rw [extend_checks_delta_and_rewrites policyStd [roomA] [bkTenEleven] "R-A" 30
    "alice@x" bkTenEleven roomA (by decide) (by decide) (by decide) (by decide)]
  decide

/-- C6.  Whenever a move or extend request fails, the store - hence every
field of every stored booking - is left exactly as it was. -/
theorem failed_move_or_extend_leaves_store_unchanged (policy : BookingPolicy)
    (rooms : List Room) (store : Store) (id : String) (d : Nat) (s : String)
    (add : Nat) (we : String) :
    ((handleMoveCommand rooms store id d s we).1.success = false →
      (handleMoveCommand rooms store id d s we).2 = store) ∧
    ((handleExtendCommand policy rooms store id add we).1.success = false →
      (handleExtendCommand policy rooms store id add we).2 = store) := by
  constructor
  · intro hf
    rcases handleMoveCommand_store_or_success rooms store id d s we with h | h
    · exact h
    · rw [hf] at h
      cases h
  · intro hf
    rcases handleExtendCommand_store_or_success policy rooms store id add we with h | h
    · exact h
    · rw [hf] at h
      cases h

/-- Witness for C6 at a failing input (unknown booking id on both paths). -/
theorem failed_move_or_extend_witness :
    (handleMoveCommand [] [] "RX" 0 "09:00" "u").2 = ([] : Store) ∧
    (handleExtendCommand policyStd [] [] "RX" 5 "u").2 = ([] : Store) := by
  have h := failed_move_or_extend_leaves_store_unchanged policyStd [] [] "RX" 0
    "09:00" 5 "u"
  exact ⟨h.1 (by decide), h.2 (by decide)⟩

/-- C8 amended.  A move or extend naming an existing booking of another
requester fails with UNAUTHORIZED and mutates nothing, whatever the status;
a cancel does so provided the booking is active (a non-active booking is
answered with INVALID_STATUS before ownership is examined). -/
theorem ownership_mismatch_yields_unauthorized (policy : BookingPolicy)
    (rooms : List Room) (store : Store) (id : String) (d : Nat) (s : String)
    (add : Nat) (we : String) (booking : Booking)
    (hfind : getBookingById store id = some booking)
    (hdiff : booking.requestedBy ≠ we) :
    handleMoveCommand rooms store id d s we
      = ({ success := false, errCode := some .UNAUTHORIZED, details := none }, store) ∧
    handleExtendCommand policy rooms store id add we
      = ({ success := false, errCode := some .UNAUTHORIZED, details := none }, store) ∧
    (booking.status = .active →
      handleCancelCommand store id we
        = ({ success := false, errCode := some .UNAUTHORIZED, details := none }, store)) := by
  refine ⟨?_, ?_, ?_⟩
  · unfold handleMoveCommand
    rw [hfind]
    dsimp only
    rw [if_pos hdiff]
  · unfold handleExtendCommand
    rw [hfind]
    dsimp only
    rw [if_pos hdiff]
  · intro hact
    unfold handleCancelCommand
    rw [hfind]
    dsimp only
    rw [if_neg (not_not_intro hact), if_pos hdiff]

/-- Witness for the amended C8 statement: bob acting on alice's active
booking gets UNAUTHORIZED from cancel, move and extend. -/
theorem ownership_mismatch_witness :
    handleMoveCommand [roomA] [bkTenEleven] "R-A" 0 "09:00" "bob@x"
      = ({ success := false, errCode := some .UNAUTHORIZED, details := none },
         [bkTenEleven]) ∧
    handleExtendCommand policyStd [roomA] [bkTenEleven] "R-A" 30 "bob@x"
      = ({ success := false, errCode := some .UNAUTHORIZED, details := none },
         [bkTenEleven]) ∧
    handleCancelCommand [bkTenEleven] "R-A" "bob@x"
      = ({ success := false, errCode := some .UNAUTHORIZED, details := none },
         [bkTenEleven]) := by
  have h := ownership_mismatch_yields_unauthorized policyStd [roomA] [bkTenEleven]
    "R-A" 0 "09:00" 30 "bob@x" bkTenEleven (by decide) (by decide)
  exact ⟨h.1, h.2.1, h.2.2 (by decide)⟩

/-- C10.  Move and extend never examine the booking's status: on a consistent
store, a booking of any non-active status owned by the requester passes the
same duration and conflict checks and, when they pass, has its time fields
rewritten while the non-active status stays in place; only cancel rejects a
non-active booking. -/
theorem move_extend_ignore_status (policy : BookingPolicy) (rooms : List Room)
    (store : Store) (id : String) (d : Nat) (s : String) (add : Nat) (we : String)
    (booking : Booking) (room : Room)
    (hinv : Inv store)
    (hfind : getBookingById store id = some booking)
    (hstat : booking.status ≠ .active)
    (hown : booking.requestedBy = we)
    (hroom : getRoomById rooms booking.roomId = some room)
    (hmax : booking.durationMinutes + add ≤ policy.maxDurationMinutes)
    (havailE : checkRoomAvailability store room.id booking.date booking.endTime
      (minToTime ((booking.date * 1440 + timeToMin booking.endTime + add) % 1440))
      (some id) = true)
    (havailM : checkRoomAvailability store room.id d s
      (minToTime ((d * 1440 + timeToMin s + booking.durationMinutes) % 1440))
      (some id) = true) :
    (handleExtendCommand policy rooms store id add we).1.success = true ∧
    (∀ b ∈ (handleExtendCommand policy rooms store id add we).2, b.bookingId = id →
      b.status = booking.status ∧
      b.endTime = minToTime ((booking.date * 1440 + timeToMin booking.endTime + add)
        % 1440) ∧
      b.durationMinutes = booking.durationMinutes + add) ∧
    (handleMoveCommand rooms store id d s we).1.success = true ∧
    (∀ b ∈ (handleMoveCommand rooms store id d s we).2, b.bookingId = id →
      b.status = booking.status ∧ b.date = d ∧ b.startTime = s ∧
      b.endTime = minToTime ((d * 1440 + timeToMin s + booking.durationMinutes)
        % 1440)) ∧
    handleCancelCommand store id we
      = ({ success := false, errCode := some .INVALID_STATUS, details := none }, store) := by
  have hbmem := getBookingById_mem hfind
  have hbid := getBookingById_id hfind
  have heq := handleExtendCommand_eq policy rooms store id add we booking room
    hfind hown hroom hmax
  have hmq := handleMoveCommand_eq rooms store id d s we booking room hfind hown hroom
  rw [heq, if_pos havailE, hmq, if_pos havailM]
  refine ⟨rfl, ?_, rfl, ?_, handleCancelCommand_nonactive store id we booking hfind hstat⟩
  · intro b hb hbid2
    unfold updateBookingEndTime at hb
    obtain ⟨x, hx, hfx⟩ := List.mem_map.mp hb
    by_cases hxid : x.bookingId = id
    · have hxeq : x = booking := hinv.id_unique hx hbmem (hxid.trans hbid.symm)
      rw [if_pos hxid] at hfx
      subst hfx
      exact ⟨by rw [hxeq], rfl, rfl⟩
    · rw [if_neg hxid] at hfx
      subst hfx
      exact absurd hbid2 hxid
  · intro b hb hbid2
    unfold updateBookingTime at hb
    obtain ⟨x, hx, hfx⟩ := List.mem_map.mp hb
    by_cases hxid : x.bookingId = id
    · have hxeq : x = booking := hinv.id_unique hx hbmem (hxid.trans hbid.symm)
      rw [if_pos hxid] at hfx
      subst hfx
      exact ⟨by rw [hxeq], rfl, rfl, rfl⟩
    · rw [if_neg hxid] at hfx
      subst hfx
      exact absurd hbid2 hxid

/-- Witness for C10: extending, moving and cancelling alice's cancelled
booking behaves as stated. -/
theorem move_extend_ignore_status_witness :
    (handleExtendCommand policyStd [roomA] [cancelledByAlice] "R-1" 30 "alice@x").1.success
      = true ∧
    (handleCancelCommand [cancelledByAlice] "R-1" "alice@x").1.errCode
      = some .INVALID_STATUS := by
  have h := move_extend_ignore_status policyStd [roomA] [cancelledByAlice] "R-1"
    0 "09:00" 30 "alice@x" cancelledByAlice roomA
    ⟨List.pairwise_singleton _ _, by decide⟩
    (by decide) (by decide) (by decide) (by decide) (by decide) (by decide) (by decide)
  exact ⟨h.1, by rw [h.2.2.2.2]⟩

/-- Anatomy of a successful book: the room was found, the past-time and
business-hours checks passed, the availability check at the full window
passed, the generated id was fresh, and the new row was appended. -/
lemma handleBookCommand_success_spec {policy : BookingPolicy} {rooms : List Room}
    {store : Store} {now : Nat} {args : BookArgs} {we wn newId : String}
    (hs : (handleBookCommand policy rooms store now args we wn newId).1.success = true) :
    ∃ room, getRoomByName rooms args.roomName = some room ∧
      ¬ (args.date * 1440 + timeToMin args.startTime < now) ∧
      ¬ ((args.date * 1440 + timeToMin args.startTime) % 1440 / 60
           < policy.bookingHoursStartHour ∨
         (args.date * 1440 + timeToMin args.startTime + args.duration) % 1440 / 60
           > policy.bookingHoursEndHour) ∧
      checkRoomAvailability store room.id args.date args.startTime
        (minToTime ((args.date * 1440 + timeToMin args.startTime + args.duration)
          % 1440)) none = true ∧
      (∀ x ∈ store, x.bookingId ≠ newId) ∧
      (handleBookCommand policy rooms store now args we wn newId).2
        = store ++ [newBooking room args we wn newId] := by
  unfold handleBookCommand at hs
  cases hroom : getRoomByName rooms args.roomName with
  | none =>
    rw [hroom] at hs
    exact absurd hs Bool.false_ne_true
  | some room =>
    rw [hroom] at hs
    dsimp only at hs
    split at hs
    · exact absurd hs Bool.false_ne_true
    · next hpast =>
      split at hs
      · exact absurd hs Bool.false_ne_true
      · next hhours =>
        split at hs
        · next havail =>
          cases hcb : createBooking store (newBooking room args we wn newId) with
          | none =>
            rw [hcb] at hs
            exact absurd hs Bool.false_ne_true
          | some s =>
            obtain ⟨hseq, hfresh⟩ := createBooking_eq_some hcb
            refine ⟨room, rfl, hpast, hhours, havail, fun x hx => hfresh x hx, ?_⟩
            unfold handleBookCommand
            rw [hroom]
            dsimp only
            rw [if_neg hpast, if_neg hhours, if_pos havail, hcb]
            exact hseq
        · next => exact absurd hs Bool.false_ne_true

/-- getBookingById finds a freshly appended row. -/
lemma getBookingById_append_fresh {store : Store} {nb : Booking}
    (hfresh : ∀ x ∈ store, x.bookingId ≠ nb.bookingId) :
    getBookingById (store ++ [nb]) nb.bookingId = some nb := by
  unfold getBookingById
  rw [List.find?_append]
  have h1 : store.find? (fun b => b.bookingId == nb.bookingId) = none :=
    List.find?_eq_none.mpr (fun x hx => by simpa using hfresh x hx)
  rw [h1]
  simp

/-- A status update keyed on the freshly appended row's id rewrites only that
row. -/
lemma updateBookingStatus_append_fresh {store : Store} {nb : Booking}
    (hfresh : ∀ x ∈ store, x.bookingId ≠ nb.bookingId) (st : BookingStatus) :
    updateBookingStatus (store ++ [nb]) nb.bookingId st
      = store ++ [{ nb with status := st }] := by
  unfold updateBookingStatus
  rw [List.map_append]
  have h1 : store.map (fun b =>
      if b.bookingId = nb.bookingId then { b with status := st } else b) = store := by
    conv_rhs => rw [← List.map_id store]
    exact List.map_congr_left (fun x hx => if_neg (hfresh x hx))
  rw [h1]
  simp

/-- C7.  After a successful book, the requester's cancel of the created
booking succeeds, and a subsequent book of the identical room, date, start
time and duration (under a fresh generated id) succeeds again: cancellation
fully frees the interval. -/
theorem cancel_frees_interval_for_rebooking (policy : BookingPolicy)
    (rooms : List Room) (store : Store) (now : Nat) (args : BookArgs)
    (we wn id1 id2 : String)
    (h1 : (handleBookCommand policy rooms store now args we wn id1).1.success = true)
    (hfresh1 : ∀ x ∈ store, x.bookingId ≠ id2) (hfresh2 : id2 ≠ id1) :
    (handleCancelCommand (handleBookCommand policy rooms store now args we wn id1).2
        id1 we).1.success = true ∧
    (handleBookCommand policy rooms
        (handleCancelCommand (handleBookCommand policy rooms store now args we wn id1).2
          id1 we).2 now args we wn id2).1.success = true := by
  obtain ⟨room, hroom, hpast, hhours, havail, hfresh, hs1⟩ :=
    handleBookCommand_success_spec h1
  have hfind1 : getBookingById (store ++ [newBooking room args we wn id1]) id1
      = some (newBooking room args we wn id1) :=
    getBookingById_append_fresh hfresh
  have hcancel : handleCancelCommand (store ++ [newBooking room args we wn id1]) id1 we
      = ({ success := true, errCode := none, details := none },
         updateBookingStatus (store ++ [newBooking room args we wn id1]) id1
           BookingStatus.cancelled) := by
    unfold handleCancelCommand
    rw [hfind1]
    dsimp only
    rw [if_neg (not_not_intro
        (show (newBooking room args we wn id1).status = BookingStatus.active from rfl)),
      if_neg (not_not_intro
        (show (newBooking room args we wn id1).requestedBy = we from rfl))]
  have hs2 : updateBookingStatus (store ++ [newBooking room args we wn id1]) id1
      BookingStatus.cancelled
      = store ++ [{ newBooking room args we wn id1 with status := .cancelled }] :=
    updateBookingStatus_append_fresh hfresh _
  have havail2 : checkRoomAvailability
      (store ++ [{ newBooking room args we wn id1 with status := .cancelled }])
      room.id args.date args.startTime
      (minToTime ((args.date * 1440 + timeToMin args.startTime + args.duration)
        % 1440)) none = true := by
    rw [checkRoomAvailability_eq_true_iff]
    intro b hb
    rcases List.mem_append.mp hb with hb | hb
    · exact checkRoomAvailability_eq_true_iff.mp havail b hb
    · rw [List.mem_singleton] at hb
      subst hb
      intro hc
      obtain ⟨_, _, hact, _, _⟩ := conflictRow_eq_true_iff.mp hc
      simp at hact
  have hnot : ¬((store ++ [{ newBooking room args we wn id1 with status :=
      BookingStatus.cancelled }]).any
      (fun x => x.bookingId == (newBooking room args we wn id2).bookingId) = true) := by
    rw [List.any_eq_true]
    rintro ⟨x, hx, hxe⟩
    rw [beq_iff_eq] at hxe
    rcases List.mem_append.mp hx with hx | hx
    · exact hfresh1 x hx hxe
    · rw [List.mem_singleton] at hx
      subst hx
      exact hfresh2 hxe.symm
  have hcb2 : createBooking
      (store ++ [{ newBooking room args we wn id1 with status := .cancelled }])
      (newBooking room args we wn id2)
      = some ((store ++ [{ newBooking room args we wn id1 with status := .cancelled }])
          ++ [newBooking room args we wn id2]) := by
    unfold createBooking
    rw [if_neg hnot]
  rw [hs1, hcancel, hs2]
  refine ⟨rfl, ?_⟩
  unfold handleBookCommand
  rw [hroom]
  dsimp only
  rw [if_neg hpast, if_neg hhours, if_pos havail2, hcb2]

/-- Witness for C7: book a free slot, cancel it, book it again. -/
theorem cancel_frees_interval_witness :
    (handleCancelCommand
        (handleBookCommand policyStd [roomA] [] 0 bookArgsOK "u@x" "U" "R-1").2
        "R-1" "u@x").1.success = true ∧
    (handleBookCommand policyStd [roomA]
        (handleCancelCommand
          (handleBookCommand policyStd [roomA] [] 0 bookArgsOK "u@x" "U" "R-1").2
          "R-1" "u@x").2 0 bookArgsOK "u@x" "U" "R-2").1.success = true :=
  cancel_frees_interval_for_rebooking policyStd [roomA] [] 0 bookArgsOK "u@x" "U"
    "R-1" "R-2" (by decide) (by decide) (by decide)

end JandiBot
